import Mathlib

/-!
Verification of the flight-booking-automation repository's step runner,
S3 uploader and Lambda handler, as a shallow embedding in Lean 4.

Effectful TypeScript is modelled by explicit outcome parameters:
an asynchronous action that may reject is an `Except String α`
(the `String` is the raised error's `.message`), the wall clock is
passed in as explicit `Int` readings of `Date.now()`, and the
module-level mutable array `stepResults` is threaded as an explicit
`List StepResult` argument and result.
-/

/-- The `status` field of a `StepResult`: the union type
`"success" | "error"` from `src/utils/runStep.ts`. -/
inductive StepStatus where
  | success
  | error
deriving DecidableEq, Repr, Inhabited

/-- The `StepResult` record type of `src/utils/runStep.ts`.
`durationMs` is an `Int` because it is computed as
`Date.now() - start`, a difference of clock readings. Optional
fields (`screenshotUrl?`, `errorMessage?`) become `Option String`. -/
structure StepResult where
  name : String
  status : StepStatus
  durationMs : Int
  screenshotUrl : Option String
  errorMessage : Option String
deriving DecidableEq, Repr, Inhabited

/-- The filename computation `localPath.split("/").pop()!` inside
`runStep`: the last `/`-separated component of the local path.
`String.splitOn` never returns `[]`, matching the JS `split` which
never returns an empty array. -/
def screenshotFilename (localPath : String) : String :=
  (localPath.splitOn "/").getLastD ""

/-- Everything observable about one `runStep` call: the new contents of
the module-level `stepResults` array, the `console.error` lines written,
and whether the call returned normally or threw (`Except.error m` models
`throw new Error(m)`). -/
structure RunStepOut where
  stepResults : List StepResult
  log : List String
  outcome : Except String Unit
deriving Repr

/-- `runStep(name, fn, page)` from `src/utils/runStep.ts`.

* `fn` is the outcome of `await fn()`;
* `screenshot` is the outcome of `await takeStepScreenshot(page, name)`
  (its `.ok` value is the returned `localPath`);
* `upload` gives the outcome of `await uploadToS3(localPath, filename)`
  for the given arguments;
* `start` and `now` are the two `Date.now()` readings (at entry and at
  the `durationMs` assignment);
* `stepResults` is the module-level array before the call.

The first `try/catch` captures a work failure into the result without
rethrowing; the second `try/catch` swallows any screenshot/upload
failure, logging it; then the duration is set, the result pushed, and
the work failure (if any) rethrown as `new Error(result.errorMessage)`. -/
def runStep (name : String) (fn : Except String Unit)
    (screenshot : Except String String)
    (upload : String → String → Except String String)
    (start now : Int) (stepResults : List StepResult) : RunStepOut :=
  let result : StepResult :=
    { name := name, status := .success, durationMs := 0,
      screenshotUrl := none, errorMessage := none }
  -- try { await fn(); } catch (error) { status = "error"; errorMessage = error.message }
  let result : StepResult :=
    match fn with
    | .ok _ => result
    | .error e => { result with status := .error, errorMessage := some e }
  -- try { localPath = await takeStepScreenshot(page, name);
  --       filename = localPath.split("/").pop()!;
  --       result.screenshotUrl = await uploadToS3(localPath, filename); }
  -- catch (e) { console.error(...); }
  let evidence : Except String String :=
    match screenshot with
    | .error e => .error e
    | .ok localPath => upload localPath (screenshotFilename localPath)
  let (result, log) : StepResult × List String :=
    match evidence with
    | .ok url => ({ result with screenshotUrl := some url }, [])
    | .error e =>
        (result,
         ["❌ Failed to capture/upload screenshot for \"" ++ name ++ "\": " ++ e])
  let result : StepResult := { result with durationMs := now - start }
  let stepResults : List StepResult := stepResults ++ [result]
  -- if (result.status === "error") throw new Error(result.errorMessage)
  if result.status = .error then
    { stepResults := stepResults, log := log,
      outcome := .error (result.errorMessage.getD "") }
  else
    { stepResults := stepResults, log := log, outcome := .ok () }

/-- The single `StepResult` that one `runStep` call pushes, as a function
of the call's outcomes and clock readings. -/
def recordedStep (name : String) (fn : Except String Unit)
    (screenshot : Except String String)
    (upload : String → String → Except String String)
    (start now : Int) : StepResult :=
  { name := name,
    status := match fn with | .ok _ => .success | .error _ => .error,
    durationMs := now - start,
    screenshotUrl :=
      match screenshot with
      | .ok p =>
          match upload p (screenshotFilename p) with
          | .ok u => some u
          | .error _ => none
      | .error _ => none,
    errorMessage := match fn with | .ok _ => none | .error e => some e }

theorem runStep_stepResults_eq (name : String) (fn : Except String Unit)
    (screenshot : Except String String)
    (upload : String → String → Except String String)
    (start now : Int) (rs : List StepResult) :
    (runStep name fn screenshot upload start now rs).stepResults
      = rs ++ [recordedStep name fn screenshot upload start now] := by
  rcases fn with e | u <;> rcases screenshot with e2 | p
  · simp [runStep, recordedStep]
  · rcases h : upload p (screenshotFilename p) with e3 | u2 <;>
      simp [runStep, recordedStep, h]
  · simp [runStep, recordedStep]
  · rcases h : upload p (screenshotFilename p) with e3 | u2 <;>
      simp [runStep, recordedStep, h]

theorem runStep_outcome_eq (name : String) (fn : Except String Unit)
    (screenshot : Except String String)
    (upload : String → String → Except String String)
    (start now : Int) (rs : List StepResult) :
    (runStep name fn screenshot upload start now rs).outcome = fn := by
  rcases fn with e | u <;> rcases screenshot with e2 | p
  · simp [runStep]
  · rcases h : upload p (screenshotFilename p) with e3 | u2 <;>
      simp [runStep, h]
  · simp [runStep]
  · rcases h : upload p (screenshotFilename p) with e3 | u2 <;>
      simp [runStep, h]

theorem runStep_log_eq (name : String) (fn : Except String Unit)
    (screenshot : Except String String)
    (upload : String → String → Except String String)
    (start now : Int) (rs : List StepResult) :
    (runStep name fn screenshot upload start now rs).log
      = match
          (match screenshot with
           | .error e => Except.error e
           | .ok p => upload p (screenshotFilename p)) with
        | .ok _ => []
        | .error e =>
            ["❌ Failed to capture/upload screenshot for \"" ++ name ++ "\": " ++ e] := by
  rcases fn with e | u <;> rcases screenshot with e2 | p
  · simp [runStep]
  · rcases h : upload p (screenshotFilename p) with e3 | u2 <;>
      simp [runStep, h]
  · simp [runStep]
  · rcases h : upload p (screenshotFilename p) with e3 | u2 <;>
      simp [runStep, h]

/-- From `(runStep ...).stepResults = rs ++ [r]` recover what `r` is. -/
theorem runStep_pushed_unique (name : String) (fn : Except String Unit)
    (screenshot : Except String String)
    (upload : String → String → Except String String)
    (start now : Int) (rs : List StepResult) (r : StepResult)
    (h : (runStep name fn screenshot upload start now rs).stepResults = rs ++ [r]) :
    r = recordedStep name fn screenshot upload start now := by
  have h2 := runStep_stepResults_eq name fn screenshot upload start now rs
  rw [h] at h2
  have := List.append_cancel_left h2
  simpa using this

/-- C1: every `runStep` invocation appends exactly one `StepResult` to the
run's result sequence, uniformly over all four combinations of work
success/failure (`fn`) and screenshot/upload success/failure
(`screenshot`, `upload`). -/
theorem runStep_appends_exactly_one (name : String) (fn : Except String Unit)
    (screenshot : Except String String)
    (upload : String → String → Except String String)
    (start now : Int) (rs : List StepResult) :
    (runStep name fn screenshot upload start now rs).stepResults.length
        = rs.length + 1
    ∧ ∃ r, (runStep name fn screenshot upload start now rs).stepResults
        = rs ++ [r] := by
  refine ⟨?_, recordedStep name fn screenshot upload start now,
    runStep_stepResults_eq ..⟩
  rw [runStep_stepResults_eq]
  simp

/-- C2: the recorded `StepResult` has `status = error` iff the work unit
raised, in which case `errorMessage` is the raised message; and the
`status`/`errorMessage` fields do not depend on the screenshot or upload
outcome at all. -/
theorem runStep_status_iff_work_raised (name : String) (fn : Except String Unit)
    (screenshot : Except String String)
    (upload : String → String → Except String String)
    (start now : Int) (rs : List StepResult) (r : StepResult)
    (h : (runStep name fn screenshot upload start now rs).stepResults = rs ++ [r]) :
    (r.status = .error ↔ ∃ m, fn = .error m)
    ∧ (∀ m, fn = .error m → r.errorMessage = some m)
    ∧ (fn = .ok () → r.status = .success ∧ r.errorMessage = none)
    ∧ ∀ (screenshot' : Except String String)
        (upload' : String → String → Except String String) (r' : StepResult),
        (runStep name fn screenshot' upload' start now rs).stepResults = rs ++ [r'] →
        r'.status = r.status ∧ r'.errorMessage = r.errorMessage := by
  have hr := runStep_pushed_unique name fn screenshot upload start now rs r h
  subst hr
  refine ⟨?_, ?_, ?_, ?_⟩
  · rcases fn with u | e <;> simp [recordedStep]
  · rintro m rfl; simp [recordedStep]
  · rintro rfl; simp [recordedStep]
  · intro screenshot' upload' r' h'
    have hr' := runStep_pushed_unique name fn screenshot' upload' start now rs r' h'
    subst hr'
    rcases fn with u | e <;> simp [recordedStep]

/-- Closed witness for `runStep_status_iff_work_raised` at a concrete call
whose work raises `boom` and whose screenshot also fails. -/
theorem runStep_status_iff_work_raised_witness :
    ((runStep "step" (.error "boom") (.error "disk full") (fun _ _ => .ok "u")
        0 5 []).stepResults.getLastD default).status = StepStatus.error := by
  have h :=
    (runStep_status_iff_work_raised "step" (.error "boom") (.error "disk full")
      (fun _ _ => .ok "u") 0 5 []
      ((runStep "step" (.error "boom") (.error "disk full") (fun _ _ => .ok "u")
          0 5 []).stepResults.getLastD default) (by rfl)).1
  exact h.mpr ⟨"boom", rfl⟩

/-- C3: `runStep` raises to its caller exactly when the work unit raised,
with the original error's message; the outcome is independent of the
screenshot and upload outcomes, so evidence failure never makes it raise. -/
theorem runStep_raises_iff_work_raised (name : String) (fn : Except String Unit)
    (screenshot : Except String String)
    (upload : String → String → Except String String)
    (start now : Int) (rs : List StepResult) :
    (runStep name fn screenshot upload start now rs).outcome = fn := by
  exact runStep_outcome_eq ..

/-- C4: the recorded `screenshotUrl` is present exactly when both the
screenshot capture and the upload succeed; when either raises, the error
is swallowed into a `console.error` line, `screenshotUrl` stays unset,
and the call's outcome is still exactly the work unit's outcome. -/
theorem runStep_screenshotUrl_policy (name : String) (fn : Except String Unit)
    (screenshot : Except String String)
    (upload : String → String → Except String String)
    (start now : Int) (rs : List StepResult) (r : StepResult)
    (h : (runStep name fn screenshot upload start now rs).stepResults = rs ++ [r]) :
    (∀ p u, screenshot = .ok p → upload p (screenshotFilename p) = .ok u →
        r.screenshotUrl = some u)
    ∧ (∀ e, screenshot = .error e →
        r.screenshotUrl = none
        ∧ (runStep name fn screenshot upload start now rs).log
            = ["❌ Failed to capture/upload screenshot for \"" ++ name ++ "\": " ++ e]
        ∧ (runStep name fn screenshot upload start now rs).outcome = fn)
    ∧ (∀ p e, screenshot = .ok p → upload p (screenshotFilename p) = .error e →
        r.screenshotUrl = none
        ∧ (runStep name fn screenshot upload start now rs).log
            = ["❌ Failed to capture/upload screenshot for \"" ++ name ++ "\": " ++ e]
        ∧ (runStep name fn screenshot upload start now rs).outcome = fn) := by
  have hr := runStep_pushed_unique name fn screenshot upload start now rs r h
  subst hr
  refine ⟨?_, ?_, ?_⟩
  · rintro p u rfl hu
    simp [recordedStep, hu]
  · rintro e rfl
    refine ⟨by simp [recordedStep], ?_, runStep_outcome_eq ..⟩
    rw [runStep_log_eq]
  · rintro p e rfl hu
    refine ⟨by simp [recordedStep, hu], ?_, runStep_outcome_eq ..⟩
    rw [runStep_log_eq]
    simp [hu]

/-- Closed witness for `runStep_screenshotUrl_policy`: a call whose work
succeeds but whose upload fails records no URL, logs, and returns
normally. -/
theorem runStep_screenshotUrl_policy_witness :
    ((runStep "s" (.ok ()) (.ok "/tmp/screenshots/a.png")
          (fun _ _ => .error "denied") 0 7 []).stepResults.getLastD
        default).screenshotUrl = none
    ∧ (runStep "s" (.ok ()) (.ok "/tmp/screenshots/a.png")
          (fun _ _ => .error "denied") 0 7 []).outcome = .ok () := by
  have h :=
    (runStep_screenshotUrl_policy "s" (.ok ()) (.ok "/tmp/screenshots/a.png")
        (fun _ _ => .error "denied") 0 7 []
        ((runStep "s" (.ok ()) (.ok "/tmp/screenshots/a.png")
            (fun _ _ => .error "denied") 0 7 []).stepResults.getLastD default)
        (by rfl)).2.2 "/tmp/screenshots/a.png" "denied" rfl rfl
  exact ⟨h.1, h.2.2⟩

/-- C8: the recorded `durationMs` is exactly the difference of the two
clock readings, so it is non-negative whenever the clock did not go
backwards, and it dominates the length of any sub-interval of the call —
in particular the evidence (screenshot/upload) phase: if that phase began
at time `evStart ≥ start` and took at least `d` (so `evStart + d ≤ now`),
then `durationMs ≥ d`. -/
theorem runStep_durationMs_spans_call (name : String) (fn : Except String Unit)
    (screenshot : Except String String)
    (upload : String → String → Except String String)
    (start now : Int) (rs : List StepResult) (r : StepResult)
    (h : (runStep name fn screenshot upload start now rs).stepResults = rs ++ [r]) :
    r.durationMs = now - start
    ∧ (start ≤ now → 0 ≤ r.durationMs)
    ∧ (∀ evStart d : Int, start ≤ evStart → evStart + d ≤ now →
        d ≤ r.durationMs) := by
  have hr := runStep_pushed_unique name fn screenshot upload start now rs r h
  subst hr
  refine ⟨rfl, fun hle => by simp [recordedStep]; omega, ?_⟩
  intro evStart d h1 h2
  simp only [recordedStep]
  omega

/-- Closed witness for `runStep_durationMs_spans_call`: a call entered at
time 10 whose evidence phase ran from time 12 for 5 units, finishing by
time 20, records a duration of 10 ≥ 5. -/
theorem runStep_durationMs_spans_call_witness :
    ((runStep "s" (.ok ()) (.error "x") (fun _ _ => .error "y") 10 20
        []).stepResults.getLastD default).durationMs = 10
    ∧ (5 : Int) ≤ ((runStep "s" (.ok ()) (.error "x") (fun _ _ => .error "y")
        10 20 []).stepResults.getLastD default).durationMs := by
  have h :=
    runStep_durationMs_spans_call "s" (.ok ()) (.error "x")
      (fun _ _ => .error "y") 10 20 []
      ((runStep "s" (.ok ()) (.error "x") (fun _ _ => .error "y") 10 20
          []).stepResults.getLastD default) (by rfl)
  exact ⟨h.1, h.2.2 12 5 (by decide) (by decide)⟩

/-- One step of the handler's fixed sequence, as seen by `runStep`: its
name, the outcome of its work closure, the outcomes of its evidence
phase, and the two clock readings of its `runStep` call. -/
structure StepSpec where
  name : String
  work : Except String Unit
  screenshot : Except String String
  upload : String → String → Except String String
  start : Int
  finish : Int

/-- The handler's sequence of `await runStep(...)` calls inside its `try`
block: each call appends to the shared `stepResults`; the first call
that throws aborts the rest (the thrown error is the second component). -/
def runSteps : List StepSpec → List StepResult → List StepResult × Except String Unit
  | [], acc => (acc, Except.ok ())
  | s :: rest, acc =>
    let out := runStep s.name s.work s.screenshot s.upload s.start s.finish acc
    match out.outcome with
    | .ok _ => runSteps rest out.stepResults
    | .error e => (out.stepResults, .error e)

/-- Outcomes of every external effect one `handler` invocation performs,
in the order the code performs them (`src` Lambda entry point). The
steps list stands for the six `runStep` calls written out in the `try`
block; `closeBrowser` is the `browser.close()` in the `finally`, whose
error is caught and only logged. `timestamp` is `new Date().toISOString()`
at response-building time. -/
structure HandlerEnv where
  ensureDirectoriesExist : Except String Unit
  launchBrowser : Except String Unit
  newContextAndPage : Except String Unit
  steps : List StepSpec
  finalScreenshot : Except String String
  closeBrowser : Except String Unit
  timestamp : String

/-- The `APIGatewayProxyResult` the handler builds: status code, the
`Content-Type` header, and the fields of the `JSON.stringify`-ed body.
`Event` is the type of the arbitrary request payload echoed back. -/
structure HandlerResponse (Event : Type) where
  statusCode : Nat
  contentType : String
  message : String
  timestamp : String
  screenshotUrl : Option String
  event : Event
  steps : List StepResult

/-- The `try { ... }` block of the Lambda `handler`: ensure directories,
launch the browser, create a context and page, run the `runStep`
sequence, take the final screenshot. Returns the `stepResults` array as
left by the block, the top-level `screenshotUrl` (set only by the final
`takeScreenshot`), and the block's outcome (the first raised error, if
any — the one the `catch` receives). `acc` is the `stepResults` array
content when the block starts. -/
def handlerTryResult (env : HandlerEnv) (acc : List StepResult) :
    List StepResult × Option String × Except String Unit :=
  match env.ensureDirectoriesExist with
  | .error e => (acc, none, .error e)
  | .ok _ =>
    match env.launchBrowser with
    | .error e => (acc, none, .error e)
    | .ok _ =>
      match env.newContextAndPage with
      | .error e => (acc, none, .error e)
      | .ok _ =>
        match runSteps env.steps acc with
        | (results, .error e) => (results, none, .error e)
        | (results, .ok _) =>
          match env.finalScreenshot with
          | .error e => (results, none, .error e)
          | .ok url => (results, some url, .ok ())

/-- The Lambda `handler` from the entry-point file. `stepResults0` is the
content of the module-level `stepResults` array left over from any
previous invocation; `stepResults.length = 0` truncates it before the
`try` block. The `try` block is `handlerTryResult`; the `catch` turns
the first raised error into `statusCode = 500` and
`message = "Error: " + error.message`; the `finally` closes the browser,
swallowing any close error; then a structured response is always
returned. -/
def handler {Event : Type} (env : HandlerEnv) (event : Event)
    (stepResults0 : List StepResult) : HandlerResponse Event :=
  -- let browser = null; let screenshotUrl = null; statusCode = 200; message = "Success"
  -- stepResults.length = 0;
  let stepResults : List StepResult := []
  -- try { ... } catch (error) { statusCode = 500; message = `Error: ${error.message}` }
  let tryResult := handlerTryResult env stepResults
  let stepResults : List StepResult := tryResult.1
  let screenshotUrl : Option String := tryResult.2.1
  let tryOutcome : Except String Unit := tryResult.2.2
  let statusCode : Nat :=
    match tryOutcome with
    | .ok _ => 200
    | .error _ => 500
  let message : String :=
    match tryOutcome with
    | .ok _ => "Success"
    | .error e => "Error: " ++ e
  -- finally { if (browser) try { await browser.close() } catch (closeError) { console.error } }
  -- env.closeBrowser is deliberately unread: a close failure is swallowed.
  { statusCode := statusCode,
    contentType := "application/json",
    message := message,
    timestamp := env.timestamp,
    screenshotUrl := screenshotUrl,
    event := event,
    steps := stepResults }

/-- One unfolding of the handler's step sequence: the head step appends
its record; a head work failure short-circuits the tail. -/
theorem runSteps_cons (s : StepSpec) (rest : List StepSpec) (acc : List StepResult) :
    runSteps (s :: rest) acc =
      match s.work with
      | .ok _ =>
          runSteps rest
            (acc ++ [recordedStep s.name s.work s.screenshot s.upload s.start s.finish])
      | .error e =>
          (acc ++ [recordedStep s.name s.work s.screenshot s.upload s.start s.finish],
            .error e) := by
  rcases hw : s.work with e | u <;>
    simp only [runSteps, runStep_outcome_eq, runStep_stepResults_eq, hw]

/-- C5: steps run in declaration order and the run halts at the first
work failure. If A's work succeeds and B's work raises `m`, then the
sequence [A, B, C] yields exactly the results of A (success) and B
(error), the B error propagates, and nothing about C — which is never
invoked — influences the outcome. -/
theorem runSteps_halts_at_first_failure (A B C : StepSpec) (m : String)
    (hA : A.work = .ok ()) (hB : B.work = .error m) :
    ∃ ra rb, (runSteps [A, B, C] []).1 = [ra, rb]
      ∧ ra.name = A.name ∧ ra.status = .success
      ∧ rb.name = B.name ∧ rb.status = .error ∧ rb.errorMessage = some m
      ∧ (runSteps [A, B, C] []).2 = .error m
      ∧ ∀ C' : StepSpec, runSteps [A, B, C'] [] = runSteps [A, B, C] [] := by
  refine ⟨recordedStep A.name A.work A.screenshot A.upload A.start A.finish,
          recordedStep B.name B.work B.screenshot B.upload B.start B.finish,
          ?_⟩
  have hrun : ∀ D : StepSpec, runSteps [A, B, D] [] =
      ([recordedStep A.name A.work A.screenshot A.upload A.start A.finish,
        recordedStep B.name B.work B.screenshot B.upload B.start B.finish],
       .error m) := by
    intro D
    rw [runSteps_cons, hA]
    simp only []
    rw [runSteps_cons, hB]
    simp
  refine ⟨by rw [hrun C], ?_, ?_, ?_, ?_, ?_, by rw [hrun C], ?_⟩
  · rfl
  · simp [recordedStep, hA]
  · rfl
  · simp [recordedStep, hB]
  · simp [recordedStep, hB]
  · intro C'
    rw [hrun C', hrun C]

/-- Closed witness for `runSteps_halts_at_first_failure` on a concrete
three-step run whose second step's work raises "not found". -/
theorem runSteps_halts_at_first_failure_witness :
    ∃ ra rb,
      (runSteps
        [⟨"A", .ok (), .error "x", fun _ _ => .error "y", 0, 1⟩,
         ⟨"B", .error "not found", .error "x", fun _ _ => .error "y", 1, 2⟩,
         ⟨"C", .ok (), .error "x", fun _ _ => .error "y", 2, 3⟩] []).1 = [ra, rb]
      ∧ ra.name = "A" ∧ ra.status = .success
      ∧ rb.name = "B" ∧ rb.status = .error ∧ rb.errorMessage = some "not found"
      ∧ (runSteps
          [⟨"A", .ok (), .error "x", fun _ _ => .error "y", 0, 1⟩,
           ⟨"B", .error "not found", .error "x", fun _ _ => .error "y", 1, 2⟩,
           ⟨"C", .ok (), .error "x", fun _ _ => .error "y", 2, 3⟩] []).2
          = .error "not found"
      ∧ ∀ C' : StepSpec,
          runSteps
            [⟨"A", .ok (), .error "x", fun _ _ => .error "y", 0, 1⟩,
             ⟨"B", .error "not found", .error "x", fun _ _ => .error "y", 1, 2⟩,
             C'] []
          = runSteps
              [⟨"A", .ok (), .error "x", fun _ _ => .error "y", 0, 1⟩,
               ⟨"B", .error "not found", .error "x", fun _ _ => .error "y", 1, 2⟩,
               ⟨"C", .ok (), .error "x", fun _ _ => .error "y", 2, 3⟩] [] := by
  exact runSteps_halts_at_first_failure
    ⟨"A", .ok (), .error "x", fun _ _ => .error "y", 0, 1⟩
    ⟨"B", .error "not found", .error "x", fun _ _ => .error "y", 1, 2⟩
    ⟨"C", .ok (), .error "x", fun _ _ => .error "y", 2, 3⟩
    "not found" rfl rfl

/-- C6: the handler always returns a structured response — status 200
with message "Success" when everything succeeded, status 500 with
message `"Error: " ++ m` where `m` is the first fatal error (directory
setup, browser launch, page creation, a step's work, or the final
screenshot), always carrying the timestamp, content type, screenshot
URL and the ordered step results; a browser-close failure never changes
the response. -/
theorem handler_structured_response {Event : Type} (env : HandlerEnv)
    (event : Event) (leftover : List StepResult) :
    ((handler env event leftover).statusCode = 200
      ∨ (handler env event leftover).statusCode = 500)
    ∧ (handler env event leftover).timestamp = env.timestamp
    ∧ (handler env event leftover).contentType = "application/json"
    ∧ (∀ m, env.ensureDirectoriesExist = .error m →
        (handler env event leftover).statusCode = 500
        ∧ (handler env event leftover).message = "Error: " ++ m
        ∧ (handler env event leftover).steps = []
        ∧ (handler env event leftover).screenshotUrl = none)
    ∧ (env.ensureDirectoriesExist = .ok () →
        ∀ m, env.launchBrowser = .error m →
        (handler env event leftover).statusCode = 500
        ∧ (handler env event leftover).message = "Error: " ++ m
        ∧ (handler env event leftover).steps = [])
    ∧ (env.ensureDirectoriesExist = .ok () → env.launchBrowser = .ok () →
        env.newContextAndPage = .ok () →
        ∀ m, (runSteps env.steps []).2 = .error m →
        (handler env event leftover).statusCode = 500
        ∧ (handler env event leftover).message = "Error: " ++ m
        ∧ (handler env event leftover).steps = (runSteps env.steps []).1
        ∧ (handler env event leftover).screenshotUrl = none)
    ∧ (env.ensureDirectoriesExist = .ok () → env.launchBrowser = .ok () →
        env.newContextAndPage = .ok () → (runSteps env.steps []).2 = .ok () →
        ∀ m, env.finalScreenshot = .error m →
        (handler env event leftover).statusCode = 500
        ∧ (handler env event leftover).message = "Error: " ++ m
        ∧ (handler env event leftover).steps = (runSteps env.steps []).1)
    ∧ (env.ensureDirectoriesExist = .ok () → env.launchBrowser = .ok () →
        env.newContextAndPage = .ok () → (runSteps env.steps []).2 = .ok () →
        ∀ u, env.finalScreenshot = .ok u →
        (handler env event leftover).statusCode = 200
        ∧ (handler env event leftover).message = "Success"
        ∧ (handler env event leftover).screenshotUrl = some u
        ∧ (handler env event leftover).steps = (runSteps env.steps []).1)
    ∧ (∀ c, handler { env with closeBrowser := c } event leftover
        = handler env event leftover) := by
  refine ⟨?_, rfl, rfl, ?_, ?_, ?_, ?_, ?_, fun c => rfl⟩
  · rcases h : (handlerTryResult env []).2.2 with m | u <;> simp [handler, h]
  · rintro m hm
    have ht : handlerTryResult env [] = ([], none, .error m) := by
      simp [handlerTryResult, hm]
    simp [handler, ht]
  · rintro hd m hl
    have ht : handlerTryResult env [] = ([], none, .error m) := by
      simp [handlerTryResult, hd, hl]
    simp [handler, ht]
  · rintro hd hl hp m hs
    rcases hrs : runSteps env.steps [] with ⟨results, outcome⟩
    rw [hrs] at hs
    simp at hs
    subst hs
    have ht : handlerTryResult env [] = (results, none, .error m) := by
      simp [handlerTryResult, hd, hl, hp, hrs]
    simp [handler, ht, hrs]
  · rintro hd hl hp hs m hf
    rcases hrs : runSteps env.steps [] with ⟨results, outcome⟩
    rw [hrs] at hs
    simp at hs
    subst hs
    have ht : handlerTryResult env [] = (results, none, .error m) := by
      simp [handlerTryResult, hd, hl, hp, hrs, hf]
    simp [handler, ht, hrs]
  · rintro hd hl hp hs u hf
    rcases hrs : runSteps env.steps [] with ⟨results, outcome⟩
    rw [hrs] at hs
    simp at hs
    subst hs
    have ht : handlerTryResult env [] = (results, some u, .ok ()) := by
      simp [handlerTryResult, hd, hl, hp, hrs, hf]
    simp [handler, ht, hrs]

/-- Closed witness for `handler_structured_response`: a handler run whose
directory setup raises "EACCES" answers 500 with that message and no
steps. -/
theorem handler_structured_response_witness :
    (handler ⟨.error "EACCES", .ok (), .ok (), [], .error "nope", .ok (), "t0"⟩
        (0 : Nat) []).statusCode = 500
    ∧ (handler ⟨.error "EACCES", .ok (), .ok (), [], .error "nope", .ok (), "t0"⟩
        (0 : Nat) []).message = "Error: " ++ "EACCES" := by
  have h :=
    (handler_structured_response
      ⟨.error "EACCES", .ok (), .ok (), [], .error "nope", .ok (), "t0"⟩
      (0 : Nat) []).2.2.2.1 "EACCES" rfl
  exact ⟨h.1, h.2.1⟩

/-- C7: every handler invocation truncates the shared `stepResults`
array before running anything, so its response is identical whatever
was left over from a previous run, and every reported step result is one
produced by this run's own step sequence. -/
theorem handler_resets_stepResults {Event : Type} (env : HandlerEnv)
    (event : Event) (leftover : List StepResult) :
    handler env event leftover = handler env event []
    ∧ ∀ r ∈ (handler env event leftover).steps, r ∈ (runSteps env.steps []).1 := by
  refine ⟨rfl, ?_⟩
  intro r hr
  rcases hd : env.ensureDirectoriesExist with m1 | u1
  · have ht : handlerTryResult env [] = ([], none, .error m1) := by
      simp [handlerTryResult, hd]
    simp [handler, ht] at hr
  rcases hl : env.launchBrowser with m2 | u2
  · have ht : handlerTryResult env [] = ([], none, .error m2) := by
      simp [handlerTryResult, hd, hl]
    simp [handler, ht] at hr
  rcases hp : env.newContextAndPage with m3 | u3
  · have ht : handlerTryResult env [] = ([], none, .error m3) := by
      simp [handlerTryResult, hd, hl, hp]
    simp [handler, ht] at hr
  rcases hrs : runSteps env.steps [] with ⟨results, outcome⟩
  rcases outcome with m4 | u4
  · have ht : handlerTryResult env [] = (results, none, .error m4) := by
      simp [handlerTryResult, hd, hl, hp, hrs]
    simp [handler, ht] at hr
    simpa using hr
  · rcases hf : env.finalScreenshot with m5 | u5
    · have ht : handlerTryResult env [] = (results, none, .error m5) := by
        simp [handlerTryResult, hd, hl, hp, hrs, hf]
      simp [handler, ht] at hr
      simpa using hr
    · have ht : handlerTryResult env [] = (results, some u5, .ok ()) := by
        simp [handlerTryResult, hd, hl, hp, hrs, hf]
      simp [handler, ht] at hr
      simpa using hr

/-- Closed witness for `handler_resets_stepResults`: with a stale result
left over, a one-step run still reports exactly its own step, which is
among that run's `runSteps` results. -/
theorem handler_resets_stepResults_witness :
    recordedStep "A" (.ok ()) (.error "x") (fun _ _ => .error "y") 0 1
      ∈ (runSteps [⟨"A", .ok (), .error "x", fun _ _ => .error "y", 0, 1⟩] []).1 := by
  have h :=
    (handler_resets_stepResults
      ⟨.ok (), .ok (), .ok (),
        [⟨"A", .ok (), .error "x", fun _ _ => .error "y", 0, 1⟩],
        .ok "url", .ok (), "t"⟩ (0 : Nat) [default]).2
  refine h _ ?_
  have ht : handlerTryResult
      ⟨.ok (), .ok (), .ok (),
        [⟨"A", .ok (), .error "x", fun _ _ => .error "y", 0, 1⟩],
        .ok "url", .ok (), "t"⟩ []
      = ([recordedStep "A" (.ok ()) (.error "x") (fun _ _ => .error "y") 0 1],
         some "url", .ok ()) := by
    simp [handlerTryResult, runSteps, runStep_outcome_eq, runStep_stepResults_eq]
  simp [handler, ht]

/-- C10: the handler's JSON body always echoes the original request
event verbatim under the `event` key, on success and failure alike. -/
theorem handler_echoes_event {Event : Type} (env : HandlerEnv)
    (event : Event) (leftover : List StepResult) :
    (handler env event leftover).event = event := rfl

/-- The argument record of the `PutObjectCommand` built in
`src/utils/uploadToS3.ts`. -/
structure PutObjectCommandArgs where
  bucket : String
  key : String
  body : List UInt8
  contentType : String
deriving DecidableEq, Repr

/-- `uploadToS3(localPath, filename)` from `src/utils/uploadToS3.ts`, on
its success path. `bucket` and `region` are the values of
`process.env.AWS_S3_BUCKET` and `process.env.AWS_REGION` (the claim is
about successful uploads, for which the bucket must be set);
`fileContent` is the result of `await readFile(localPath)`. Returns the
`PutObjectCommand` sent to S3 and the URL string returned to the
caller. -/
def uploadToS3 (bucket region : String) (fileContent : List UInt8)
    (filename : String) : PutObjectCommandArgs × String :=
  let command : PutObjectCommandArgs :=
    { bucket := bucket,
      key := "screenshots/" ++ filename,
      body := fileContent,
      contentType := "image/png" }
  let url : String :=
    "https://" ++ bucket ++ ".s3." ++ region ++ ".amazonaws.com/screenshots/"
      ++ filename
  (command, url)

/-- Drop characters up to and including the first `/`. -/
def dropThroughSlash : List Char → List Char
  | [] => []
  | c :: rest => if c = '/' then rest else dropThroughSlash rest

/-- The path component of an URL of the form `scheme://host/path` with a
slash-free scheme and host: what remains after consuming the three
slashes of `://` and the authority/path separator. -/
def urlPathSuffix (url : String) : String :=
  ⟨dropThroughSlash (dropThroughSlash (dropThroughSlash url.data))⟩

theorem dropThroughSlash_cons_slash (ys : List Char) :
    dropThroughSlash ('/' :: ys) = ys := by
  simp [dropThroughSlash]

theorem dropThroughSlash_append (xs ys : List Char) (h : '/' ∉ xs) :
    dropThroughSlash (xs ++ '/' :: ys) = ys := by
  induction xs with
  | nil => simp [dropThroughSlash]
  | cons c cs ih =>
    rw [List.cons_append, dropThroughSlash, if_neg, ih]
    · intro hm
      exact h (List.mem_cons_of_mem c hm)
    · intro hc
      exact h (hc ▸ List.mem_cons_self c cs)

/-- C9: a successful `uploadToS3(localPath, filename)` stores the read
file content under object key `screenshots/<filename>` and returns
`https://<bucket>.s3.<region>.amazonaws.com/screenshots/<filename>`;
for well-formed (slash-free) bucket and region values the path suffix of
the returned URL is exactly the object key used in the upload, so the
URL addresses the object that was stored. -/
theorem uploadToS3_url_matches_key (bucket region : String)
    (fileContent : List UInt8) (filename : String)
    (hb : '/' ∉ bucket.data) (hr : '/' ∉ region.data) :
    (uploadToS3 bucket region fileContent filename).1.key
        = "screenshots/" ++ filename
    ∧ (uploadToS3 bucket region fileContent filename).1.body = fileContent
    ∧ (uploadToS3 bucket region fileContent filename).1.bucket = bucket
    ∧ (uploadToS3 bucket region fileContent filename).2
        = "https://" ++ bucket ++ ".s3." ++ region
            ++ ".amazonaws.com/screenshots/" ++ filename
    ∧ urlPathSuffix (uploadToS3 bucket region fileContent filename).2
        = (uploadToS3 bucket region fileContent filename).1.key := by
  refine ⟨rfl, rfl, rfl, rfl, ?_⟩
  show urlPathSuffix
      ("https://" ++ bucket ++ ".s3." ++ region
        ++ ".amazonaws.com/screenshots/" ++ filename)
      = "screenshots/" ++ filename
  have hdata :
      ("https://" ++ bucket ++ ".s3." ++ region
          ++ ".amazonaws.com/screenshots/" ++ filename).data
        = "https:".data ++ '/' ::
            ('/' :: ((bucket.data ++ ".s3.".data ++ region.data
              ++ ".amazonaws.com".data) ++ '/' ::
                ("screenshots/" ++ filename).data)) := by
    simp [String.data_append]
  have hhost : '/' ∉ bucket.data ++ ".s3.".data ++ region.data
      ++ ".amazonaws.com".data := by
    intro hm
    rcases List.mem_append.mp hm with hm1 | hm2
    · rcases List.mem_append.mp hm1 with hm3 | hm4
      · rcases List.mem_append.mp hm3 with hm5 | hm6
        · exact hb hm5
        · exact absurd hm6 (by decide)
      · exact hr hm4
    · exact absurd hm2 (by decide)
  have h1 : urlPathSuffix
      ("https://" ++ bucket ++ ".s3." ++ region
        ++ ".amazonaws.com/screenshots/" ++ filename)
      = ⟨("screenshots/" ++ filename).data⟩ := by
    unfold urlPathSuffix
    rw [hdata, dropThroughSlash_append "https:".data _ (by decide)]
    rw [dropThroughSlash_cons_slash]
    rw [dropThroughSlash_append _ _ hhost]
  rw [h1]

/-- Closed witness for `uploadToS3_url_matches_key` on a concrete bucket,
region and filename. -/
theorem uploadToS3_url_matches_key_witness :
    urlPathSuffix (uploadToS3 "my-bucket" "us-east-2" [7] "a.png").2
      = (uploadToS3 "my-bucket" "us-east-2" [7] "a.png").1.key := by
  exact (uploadToS3_url_matches_key "my-bucket" "us-east-2" [7] "a.png"
    (by decide) (by decide)).2.2.2.2
